import Mathlib

/-!
# Verification of the cosm-python client core

A shallow embedding, in Lean 4, of the entity-storage, serialization, time
encoding and URL handling logic of `cosm/__init__.py`, together with proofs
of the specified properties.

Conventions of the embedding:
* Python `datetime` values (always naive in this client) are records of
  calendar fields (`PyDateTime`).
* Python values appearing in an entity's `_data` store are modelled by the
  inductive `PyVal`; the store itself (a Python `dict` with insertion order)
  is an ordered association list.
* Stateful methods are explicit state-passing functions; methods that can
  raise are `Except`/`Option` valued.
-/

/-- A Python `datetime.datetime` (naive, as used throughout this client):
its calendar fields.  Python's constructor enforces `1 ≤ year ≤ 9999`,
`1 ≤ month ≤ 12`, `1 ≤ day ≤ 31`, `hour ≤ 23`, `minute ≤ 59`, `second ≤ 59`
and `microsecond ≤ 999999`; those bounds appear as hypotheses of the
theorems below. -/
structure PyDateTime where
  year : Nat
  month : Nat
  day : Nat
  hour : Nat
  minute : Nat
  second : Nat
  microsecond : Nat
deriving DecidableEq

/-- The decimal digit characters, by value. -/
def digitChar (d : Nat) : Char :=
  match d with
  | 0 => '0' | 1 => '1' | 2 => '2' | 3 => '3' | 4 => '4'
  | 5 => '5' | 6 => '6' | 7 => '7' | 8 => '8' | 9 => '9'
  | _ => '0'

/-- `n` rendered as exactly `w` decimal digits, zero padded (the behavior of
C-style `%0wd` formatting on the values a `datetime` can hold). -/
def padDigits : Nat → Nat → List Char
  | 0, _ => []
  | w + 1, n => padDigits w (n / 10) ++ [digitChar (n % 10)]

/-- `datetime.isoformat()` for a naive datetime: `YYYY-MM-DDTHH:MM:SS`,
with `.ffffff` appended only when the microsecond component is nonzero. -/
def isoformatChars (t : PyDateTime) : List Char :=
  padDigits 4 t.year ++ '-' ::
  (padDigits 2 t.month ++ '-' ::
  (padDigits 2 t.day ++ 'T' ::
  (padDigits 2 t.hour ++ ':' ::
  (padDigits 2 t.minute ++ ':' ::
  (padDigits 2 t.second ++
    (if t.microsecond = 0 then [] else '.' :: padDigits 6 t.microsecond))))))

/-- `datetime.isoformat()` as a string. -/
def pyIsoformat (t : PyDateTime) : String :=
  String.mk (isoformatChars t)

/-- `JSONEncoder.default` on a `datetime` value (`cosm/__init__.py`, lines
197-199): `obj.isoformat() + 'Z'`.  This is the wire rendering of a
timestamp — the encoding half of the TimeCodec. -/
def timeEncode (t : PyDateTime) : String :=
  pyIsoformat t ++ "Z"

/-- Is `c` a decimal digit? -/
def isDigitChar (c : Char) : Bool :=
  48 ≤ c.toNat && c.toNat ≤ 57

/-- Numeric value of a digit character. -/
def digitVal (c : Char) : Nat :=
  c.toNat - 48

/-- The number denoted by a most-significant-first list of digit chars. -/
def digitsToNat (l : List Char) : Nat :=
  l.foldl (fun a c => a * 10 + digitVal c) 0

/-- Consume exactly `w` decimal digits from the front of `l`, returning
their value and the rest; fail otherwise. -/
def takeDigits (w : Nat) (l : List Char) : Option (Nat × List Char) :=
  let pre := l.take w
  if pre.length = w && pre.all isDigitChar then
    some (digitsToNat pre, l.drop w)
  else
    none

/-- Consume the literal character `c` from the front of `l`. -/
def expectChar (c : Char) : List Char → Option (List Char)
  | c' :: rest => if c' = c then some rest else none
  | [] => none

/-- Modelled from the spec: the decoding half of the TimeCodec lives in
`cosm/api.py`, which is not under `src/`.  Per spec section 4.1 it parses
the calendar fields of `YYYY-MM-DDTHH:MM:SSZ`, tolerating an optional
6-digit sub-second fraction before the marker, treats the trailing `Z` as a
literal marker to discard, and fails (`FormatError`, here `none`) when the
string does not match the pattern (including calendar fields outside the
ranges a `datetime` accepts). -/
def decodeChars (l : List Char) : Option PyDateTime := do
  let (y, l) ← takeDigits 4 l
  let l ← expectChar '-' l
  let (mo, l) ← takeDigits 2 l
  let l ← expectChar '-' l
  let (d, l) ← takeDigits 2 l
  let l ← expectChar 'T' l
  let (h, l) ← takeDigits 2 l
  let l ← expectChar ':' l
  let (mi, l) ← takeDigits 2 l
  let l ← expectChar ':' l
  let (s, l) ← takeDigits 2 l
  let (f, l) ←
    if l.head? = some '.' then takeDigits 6 (l.drop 1)
    else pure (0, l)
  let l ← expectChar 'Z' l
  if l = [] ∧ 1 ≤ y ∧ 1 ≤ mo ∧ mo ≤ 12 ∧ 1 ≤ d ∧ d ≤ 31 ∧
      h ≤ 23 ∧ mi ≤ 59 ∧ s ≤ 59 then
    some ⟨y, mo, d, h, mi, s, f⟩
  else
    none

/-- Modelled from the spec: `TimeCodec.decode` on a wire string. -/
def timeDecode (s : String) : Option PyDateTime :=
  decodeChars s.data

/-- A Python value as it occurs in an entity's `_data` store or a request
payload: strings, integers, booleans, `None`, `datetime` values, entities
(objects exposing `__getstate__`, carried with their class name and their
`_data` store), and lists/dicts of such values. -/
inductive PyVal where
  | str (s : String)
  | int (n : Int)
  | bool (b : Bool)
  | null
  | dt (t : PyDateTime)
  | entity (className : String) (store : List (String × PyVal))
  | list (xs : List PyVal)
  | dict (fs : List (String × PyVal))

/-- A Python `dict` with string keys, as an insertion-ordered association
list (Python dicts preserve insertion order). -/
abbrev Dict := List (String × PyVal)

/-- First value stored under `k`, if any (`d[k]` lookup). -/
def dlookup (k : String) : Dict → Option PyVal
  | [] => none
  | (k', v) :: d => if k' = k then some v else dlookup k d

/-- Key membership (`k in d`). -/
def dmem (k : String) : Dict → Bool
  | [] => false
  | (k', _) :: d => k' = k || dmem k d

/-- `d[k] = v`: replace in place when the key exists (keeping its
position), append otherwise. -/
def dinsert (d : Dict) (k : String) (v : PyVal) : Dict :=
  if dmem k d then d.map (fun p => if p.1 = k then (k, v) else p)
  else d ++ [(k, v)]

/-- `d.update(kw)`: insert every pair of `kw` in order. -/
def dupdate (d : Dict) (kw : Dict) : Dict :=
  kw.foldl (fun acc p => dinsert acc p.1 p.2) d

/-- `d.pop(k)`: the value under `k` together with the dict with that entry
removed; `none` when the key is absent (Python raises `KeyError`). -/
def dpop (k : String) (d : Dict) : Option (PyVal × Dict) :=
  match dlookup k d with
  | some v => some (v, d.filter (fun p => p.1 != k))
  | none => none

/-- `Base.__getstate__` (`cosm/__init__.py`, lines 82-83): returns
`dict(**self._data)` — a copy of the store, exactly its fields. -/
def Base.getstate (d : Dict) : Dict :=
  d

/-- `Base.__getattr__` (lines 85-91): fallback attribute lookup in the
`_data` store; raises `AttributeError` naming the class and the attribute
when the field is absent. -/
def Base.getattr (className : String) (d : Dict) (name : String) :
    Except String PyVal :=
  match dlookup name d with
  | some v => Except.ok v
  | none =>
    Except.error
      ("'" ++ className ++ "' object has no attribute '" ++ name ++ "'")

/-- What a Python attribute read on an entity can yield: a value from the
`_data` store, or the result of a structural accessor defined on the class
(a property or method found by normal class-level lookup). -/
inductive ReadResult where
  | val (v : PyVal)
  | structural

/-- A full attribute read on an entity: Python resolves names defined on
the class (properties such as `Feed.datastreams`, methods such as
`update`) by normal lookup; `Base.__getattr__` runs only as the fallback
when that fails. -/
def readAttr (classAttrs : List String) (className : String) (d : Dict)
    (name : String) : Except String ReadResult :=
  if name ∈ classAttrs then Except.ok ReadResult.structural
  else (Base.getattr className d name).map ReadResult.val

/-- A call issued to the entity's bound manager (`self._manager`), as
produced by the entity-level `update`/`delete` methods. -/
inductive ManagerCall where
  | update (identity : PyVal) (body : Dict)
  | delete (identity : PyVal)

/-- A `cosm.api.DatastreamsManager` handle as far as this module sees it:
`DatastreamsManager(self)` is constructed on the owning Feed, so the
handle is scoped to that feed (modelled by carrying the owner's store at
materialization time; the Python object holds a reference to the feed). -/
structure DatastreamsManager where
  parent : Dict

/-- A `cosm.api.DatapointsManager` handle, scoped to its owning
Datastream. -/
structure DatapointsManager where
  parent : Dict

/-- What reading a nested-collection attribute can yield: a live
manager-backed handle, or a raw stored collection value. -/
inductive FieldRead (μ : Type) where
  | manager (m : μ)
  | raw (v : PyVal)

/-- A `cosm.Feed`: its `_data` store and the `_datastreams` slot backing
the lazy `datastreams` property (class attribute `None` until the getter
first runs). -/
structure Feed where
  data : Dict
  datastreamsCache : Option DatastreamsManager

/-- The `Feed.datastreams` property getter (lines 112-117): if
`self._datastreams is None`, create a `DatastreamsManager(self)` and cache
it; return the cached manager.  The getter never consults
`self._data['datastreams']`. -/
def Feed.datastreams (f : Feed) : FieldRead DatastreamsManager × Feed :=
  match f.datastreamsCache with
  | none =>
    let m : DatastreamsManager := ⟨f.data⟩
    (FieldRead.manager m, { f with datastreamsCache := some m })
  | some m => (FieldRead.manager m, f)

/-- The `Feed.datastreams` property setter (lines 119-124) on the
construction path, where no `_manager` is bound (`getattr(self,
'_manager', None)` is `None`, so `_coerce_datastreams` is skipped): the
supplied collection is stored as-is in `self._data['datastreams']`;
`self._datastreams` is left untouched. -/
def Feed.setDatastreams (f : Feed) (v : PyVal) : Feed :=
  { f with data := dinsert f.data "datastreams" v }

/-- `Feed.__init__` (lines 105-110): store `title`, route a `datastreams`
keyword through the property setter, then `self._data.update(kwargs)`. -/
def Feed.init (title : PyVal) (kwargs : Dict) : Feed :=
  let f0 : Feed := { data := [("title", title)], datastreamsCache := none }
  match dpop "datastreams" kwargs with
  | some (v, rest) =>
    let f1 := Feed.setDatastreams f0 v
    { f1 with data := dupdate f1.data rest }
  | none => { f0 with data := dupdate f0.data kwargs }

/-- `Feed.__getstate__` with explicit state passing: it is `Base`'s
implementation reading only `self._data` — no property is consulted, no
cache slot is written, nothing is fetched. -/
def Feed.getstateS (f : Feed) : Dict × Feed :=
  (Base.getstate f.data, f)

/-- `Feed.update` (lines 126-127):
`self._manager.update(self.feed, **self.__getstate__())`.  Reading
`self.feed` goes through `__getattr__` (the class defines no `feed`
attribute) and raises before any manager call when the field is absent. -/
def Feed.update (f : Feed) : Except String ManagerCall :=
  (Base.getattr "Feed" f.data "feed").map
    (fun v => ManagerCall.update v (Base.getstate f.data))

/-- `Feed.delete` (lines 129-130): `self._manager.delete(self.feed)`. -/
def Feed.delete (f : Feed) : Except String ManagerCall :=
  (Base.getattr "Feed" f.data "feed").map ManagerCall.delete

/-- A `cosm.Datastream`: its `_data` store and the `_datapoints` slot
backing the lazy `datapoints` property. -/
structure Datastream where
  data : Dict
  datapointsCache : Option DatapointsManager

/-- The `Datastream.datapoints` property getter (lines 145-150): lazily
create and cache a `DatapointsManager(self)`; never consults
`self._data['datapoints']`. -/
def Datastream.datapoints (d : Datastream) :
    FieldRead DatapointsManager × Datastream :=
  match d.datapointsCache with
  | none =>
    let m : DatapointsManager := ⟨d.data⟩
    (FieldRead.manager m, { d with datapointsCache := some m })
  | some m => (FieldRead.manager m, d)

/-- The `Datastream.datapoints` property setter (lines 152-154):
`self._data['datapoints'] = datapoints` (no coercion at all). -/
def Datastream.setDatapoints (d : Datastream) (v : PyVal) : Datastream :=
  { d with data := dinsert d.data "datapoints" v }

/-- `Datastream.__init__` (lines 138-143). -/
def Datastream.init (id : PyVal) (kwargs : Dict) : Datastream :=
  let d0 : Datastream := { data := [("id", id)], datapointsCache := none }
  match dpop "datapoints" kwargs with
  | some (v, rest) =>
    let d1 := Datastream.setDatapoints d0 v
    { d1 with data := dupdate d1.data rest }
  | none => { d0 with data := dupdate d0.data kwargs }

/-- `Datastream.update` (lines 156-158):
`self._manager.update(self.id, **self.__getstate__())`. -/
def Datastream.update (d : Datastream) : Except String ManagerCall :=
  (Base.getattr "Datastream" d.data "id").map
    (fun v => ManagerCall.update v (Base.getstate d.data))

/-- `Datastream.delete` (lines 160-161): `self._manager.delete(self.id)`. -/
def Datastream.delete (d : Datastream) : Except String ManagerCall :=
  (Base.getattr "Datastream" d.data "id").map ManagerCall.delete

/-- `Datapoint.__init__` (lines 167-170): the store holds exactly `at` and
`value` (a Datapoint has no lazy collection slot, so it is just its
store). -/
def Datapoint.init (atv value : PyVal) : Dict :=
  [("at", atv), ("value", value)]

/-- `Datapoint.update` (lines 172-174): `state = self.__getstate__();
self._manager.update(state.pop('at'), **state)` — the `at` timestamp is
the identity and is removed from the body; `none` models the `KeyError`
when `at` is absent. -/
def Datapoint.update (d : Dict) : Option ManagerCall :=
  (dpop "at" (Base.getstate d)).map
    (fun p => ManagerCall.update p.1 p.2)

/-- `Datapoint.delete` (lines 176-177): `self._manager.delete(self.at)`. -/
def Datapoint.delete (d : Dict) : Except String ManagerCall :=
  (Base.getattr "Datapoint" d "at").map ManagerCall.delete

/-- `Trigger.__init__` (lines 183-192): the store holds exactly the four
required fields, plus `threshold_value` only when it `is not None`. -/
def Trigger.init (environment_id stream_id url trigger_type : PyVal)
    (threshold_value : PyVal := PyVal.null) : Dict :=
  let base : Dict :=
    [("environment_id", environment_id), ("stream_id", stream_id),
     ("url", url), ("trigger_type", trigger_type)]
  match threshold_value with
  | PyVal.null => base
  | v => base ++ [("threshold_value", v)]

/-- Modelled from the spec: the `DatapointsManager` in `cosm/api.py` (not
under `src/`) builds a datapoint's item URL as the datapoints collection
URL suffixed with `/` and the TimeCodec-encoded `at` value (spec section
6: item URL "suffixed with `/{at}` using TimeCodec encoding"). -/
def datapointItemUrl (collectionUrl : String) (t : PyDateTime) : String :=
  collectionUrl ++ "/" ++ timeEncode t

/-- A JSON value, the target of serialization. -/
inductive JVal where
  | str (s : String)
  | int (n : Int)
  | bool (b : Bool)
  | null
  | arr (xs : List JVal)
  | obj (fs : List (String × JVal))

mutual
/-- `json.dumps` with the custom `JSONEncoder` (lines 195-203), at the
value-tree level: strings, integers, booleans and `None` are primitives;
lists and dicts recurse; for other objects `default` runs — a `datetime`
is rendered `obj.isoformat() + 'Z'`, an object with `__getstate__` is
serialized as its store, anything else raises `TypeError` (`none`). -/
def encodeVal : PyVal → Option JVal
  | PyVal.str s => some (JVal.str s)
  | PyVal.int n => some (JVal.int n)
  | PyVal.bool b => some (JVal.bool b)
  | PyVal.null => some JVal.null
  | PyVal.dt t => some (JVal.str (timeEncode t))
  | PyVal.list xs => (encodeList xs).map JVal.arr
  | PyVal.dict fs => (encodeObj fs).map JVal.obj
  | PyVal.entity _ st => (encodeObj st).map JVal.obj

/-- Encode the elements of a JSON array in order; fail if any element
fails. -/
def encodeList : List PyVal → Option (List JVal)
  | [] => some []
  | x :: xs =>
    match encodeVal x, encodeList xs with
    | some j, some js => some (j :: js)
    | _, _ => none

/-- Encode the fields of a JSON object in order, keeping every key; fail
if any value fails. -/
def encodeObj : List (String × PyVal) → Option (List (String × JVal))
  | [] => some []
  | (k, v) :: fs =>
    match encodeVal v, encodeObj fs with
    | some j, some js => some ((k, j) :: js)
    | _, _ => none
end

/-- Is `c` allowed in a URL scheme (RFC 3986 / `urllib.parse`)? -/
def isSchemeChar (c : Char) : Bool :=
  c.isAlpha || c.isDigit || c = '+' || c = '-' || c = '.'

/-- Does `url` carry its own scheme (`scheme:...` with an alphabetic first
character), as `urllib.parse` detects it? -/
def hasScheme (url : String) : Bool :=
  if (url.data.dropWhile isSchemeChar).head? = some ':' then
    match url.data.head? with
    | some c => c.isAlpha
    | none => false
  else false

/-- The scheme of an absolute base URL (characters before the first
`:`). -/
def schemeOf (base : String) : String :=
  String.mk (base.data.takeWhile (fun c => c ≠ ':'))

/-- `scheme://host` of an absolute base URL such as
`http://api.cosm.com`. -/
def baseOrigin (base : String) : String :=
  let afterScheme := (base.data.dropWhile (fun c => c ≠ ':')).drop 3
  schemeOf base ++ "://" ++
    String.mk (afterScheme.takeWhile (fun c => c ≠ '/'))

/-- Modelled from the behavior of `urllib.parse.urljoin` (Python standard
library, external to this repository) on the URL forms this client uses: a
URL with its own scheme is returned unchanged; a network-path reference
`//host...` takes the base's scheme; an absolute-path reference `/...`
replaces the path of the base (which here has scheme and host only); any
other nonempty reference is resolved under the base's root; the empty
reference yields the base. -/
def urljoin (base url : String) : String :=
  if url = "" then base
  else if hasScheme url then url
  else if url.data.head? = some '/' ∧ (url.data.drop 1).head? = some '/' then
    schemeOf base ++ ":" ++ url
  else if url.data.head? = some '/' then baseOrigin base ++ url
  else baseOrigin base ++ "/" ++ url

/-- `Client.BASE_URL` (line 39). -/
def Client.BASE_URL : String :=
  "http://api.cosm.com"

/-- The URL resolution performed by `Client.request` (line 55):
`full_url = urljoin(self.base_url, url)`, with `self.base_url` set to
`BASE_URL` by `Client.__init__`. -/
def Client.requestUrl (url : String) : String :=
  urljoin Client.BASE_URL url

/-! ## Helper lemmas about digit rendering and parsing -/

theorem padDigits_length (w n : Nat) : (padDigits w n).length = w := by
  induction w generalizing n with
  | zero => rfl
  | succ w ih => simp [padDigits, ih]

theorem isDigitChar_digitChar : ∀ d, d < 10 → isDigitChar (digitChar d) = true := by
  decide

theorem digitVal_digitChar : ∀ d, d < 10 → digitVal (digitChar d) = d := by
  decide

theorem padDigits_all_digits (w n : Nat) :
    (padDigits w n).all isDigitChar = true := by
  induction w generalizing n with
  | zero => rfl
  | succ w ih =>
    simp only [padDigits, List.all_append, ih, List.all_cons, List.all_nil,
      Bool.and_true, Bool.true_and]
    exact isDigitChar_digitChar _ (Nat.mod_lt _ (by omega))

theorem digitsToNat_append (l : List Char) (c : Char) :
    digitsToNat (l ++ [c]) = 10 * digitsToNat l + digitVal c := by
  simp [digitsToNat, List.foldl_append, Nat.mul_comm]

theorem digitsToNat_padDigits (w n : Nat) (h : n < 10 ^ w) :
    digitsToNat (padDigits w n) = n := by
  induction w generalizing n with
  | zero =>
    simp [padDigits, digitsToNat]
    omega
  | succ w ih =>
    have hdiv : n / 10 < 10 ^ w := by
      rw [Nat.div_lt_iff_lt_mul (by omega)]
      calc n < 10 ^ (w + 1) := h
        _ = 10 ^ w * 10 := by rw [Nat.pow_succ]
    rw [padDigits, digitsToNat_append, ih _ hdiv,
      digitVal_digitChar _ (Nat.mod_lt _ (by omega))]
    omega

theorem takeDigits_exact (l rest : List Char) (hd : l.all isDigitChar = true) :
    takeDigits l.length (l ++ rest) = some (digitsToNat l, rest) := by
  unfold takeDigits
  rw [List.take_left, List.drop_left]
  simp [hd]

theorem takeDigits_padDigits (w n : Nat) (rest : List Char) (h : n < 10 ^ w) :
    takeDigits w (padDigits w n ++ rest) = some (n, rest) := by
  have := takeDigits_exact (padDigits w n) rest (padDigits_all_digits w n)
  rwa [padDigits_length, digitsToNat_padDigits w n h] at this

theorem expectChar_cons (c : Char) (rest : List Char) :
    expectChar c (c :: rest) = some rest := by
  simp [expectChar]

theorem not_digit_mem_padDigits (c : Char) (w n : Nat)
    (hc : isDigitChar c = false) : c ∉ padDigits w n := by
  intro hm
  have := List.all_eq_true.mp (padDigits_all_digits w n) c hm
  rw [hc] at this
  exact absurd this (by decide)

/-! ## Claim C1 -/

/-- C1: for every timestamp `t` with microsecond or coarser precision (any
calendar field tuple a Python `datetime` accepts),
`TimeCodec.decode (TimeCodec.encode t) = t`, where the encoding is the wire
rendering the JSON encoder applies to `datetime` values. -/
theorem timeCodec_decode_encode_roundTrip (t : PyDateTime)
    (hy1 : 1 ≤ t.year) (hy : t.year ≤ 9999)
    (hmo1 : 1 ≤ t.month) (hmo : t.month ≤ 12)
    (hd1 : 1 ≤ t.day) (hd : t.day ≤ 31)
    (hh : t.hour ≤ 23) (hmi : t.minute ≤ 59) (hs : t.second ≤ 59)
    (hus : t.microsecond ≤ 999999) :
    timeDecode (timeEncode t) = some t := by
  have e4 : (10 : Nat) ^ 4 = 10000 := by norm_num
  have e2 : (10 : Nat) ^ 2 = 100 := by norm_num
  have e6 : (10 : Nat) ^ 6 = 1000000 := by norm_num
  have ty : ∀ rest, takeDigits 4 (padDigits 4 t.year ++ rest) =
      some (t.year, rest) :=
    fun rest => takeDigits_padDigits 4 t.year rest (by rw [e4]; omega)
  have tmo : ∀ rest, takeDigits 2 (padDigits 2 t.month ++ rest) =
      some (t.month, rest) :=
    fun rest => takeDigits_padDigits 2 t.month rest (by rw [e2]; omega)
  have td : ∀ rest, takeDigits 2 (padDigits 2 t.day ++ rest) =
      some (t.day, rest) :=
    fun rest => takeDigits_padDigits 2 t.day rest (by rw [e2]; omega)
  have th : ∀ rest, takeDigits 2 (padDigits 2 t.hour ++ rest) =
      some (t.hour, rest) :=
    fun rest => takeDigits_padDigits 2 t.hour rest (by rw [e2]; omega)
  have tmi : ∀ rest, takeDigits 2 (padDigits 2 t.minute ++ rest) =
      some (t.minute, rest) :=
    fun rest => takeDigits_padDigits 2 t.minute rest (by rw [e2]; omega)
  have ts : ∀ rest, takeDigits 2 (padDigits 2 t.second ++ rest) =
      some (t.second, rest) :=
    fun rest => takeDigits_padDigits 2 t.second rest (by rw [e2]; omega)
  have t6 : ∀ rest, takeDigits 6 (padDigits 6 t.microsecond ++ rest) =
      some (t.microsecond, rest) :=
    fun rest => takeDigits_padDigits 6 t.microsecond rest (by rw [e6]; omega)
  have hdata : (timeEncode t).data = isoformatChars t ++ ['Z'] := by
    simp [timeEncode, pyIsoformat]
  rw [timeDecode, hdata, isoformatChars]
  by_cases hus0 : t.microsecond = 0
  · simp only [hus0, decodeChars, List.cons_append, List.append_assoc,
      List.nil_append, ite_true, reduceIte,
      ty, tmo, td, th, tmi, ts, expectChar_cons, bind, Option.bind,
      List.head?_cons, List.drop_succ_cons]
    rw [if_neg (by decide : ¬ (some 'Z' = some '.'))]
    rw [if_pos ⟨trivial, hy1, hmo1, hmo, hd1, hd, hh, hmi, hs⟩]
    exact congrArg some (by rw [← hus0])
  · simp only [decodeChars, List.cons_append, List.append_assoc,
      List.nil_append, if_neg hus0,
      ty, tmo, td, th, tmi, ts, expectChar_cons, bind, Option.bind,
      List.head?_cons, List.drop_succ_cons]
    simp only [if_true, List.drop_zero, t6, expectChar_cons]
    rw [if_pos ⟨trivial, hy1, hmo1, hmo, hd1, hd, hh, hmi, hs⟩]

/-- Witness for C1: the round trip evaluated at the microsecond-precision
timestamp used throughout the test suite, and at a whole-second one. -/
theorem timeCodec_decode_encode_roundTrip_witness :
    timeDecode (timeEncode ⟨2010, 7, 28, 7, 48, 22, 14326⟩) =
      some ⟨2010, 7, 28, 7, 48, 22, 14326⟩ ∧
    timeDecode (timeEncode ⟨2013, 1, 1, 14, 0, 0, 0⟩) =
      some ⟨2013, 1, 1, 14, 0, 0, 0⟩ :=
  ⟨timeCodec_decode_encode_roundTrip ⟨2010, 7, 28, 7, 48, 22, 14326⟩
    (by decide) (by decide) (by decide) (by decide) (by decide) (by decide)
    (by decide) (by decide) (by decide) (by decide),
   timeCodec_decode_encode_roundTrip ⟨2013, 1, 1, 14, 0, 0, 0⟩
    (by decide) (by decide) (by decide) (by decide) (by decide) (by decide)
    (by decide) (by decide) (by decide) (by decide)⟩

/-! ## Helper lemmas about the dict operations -/

theorem dlookup_eq_none_iff (k : String) (d : Dict) :
    dlookup k d = none ↔ dmem k d = false := by
  induction d with
  | nil => simp [dlookup, dmem]
  | cons p d ih =>
    obtain ⟨k', v⟩ := p
    by_cases h : k' = k <;> simp [dlookup, dmem, h, ih]

theorem dmem_append (k : String) (d1 d2 : Dict) :
    dmem k (d1 ++ d2) = (dmem k d1 || dmem k d2) := by
  induction d1 with
  | nil => simp [dmem]
  | cons p d ih => simp [dmem, ih, Bool.or_assoc]

theorem dmem_map_replace (d : Dict) (k k' : String) (v : PyVal)
    (h1 : dmem k d = false) (h2 : k' ≠ k) :
    dmem k (d.map (fun p => if p.1 = k' then (k', v) else p)) = false := by
  induction d with
  | nil => rfl
  | cons p d ih =>
    obtain ⟨a, b⟩ := p
    simp only [dmem, Bool.or_eq_false_iff, decide_eq_false_iff_not] at h1
    simp only [List.map_cons]
    by_cases ha : a = k'
    · rw [if_pos ha]
      simp [dmem, h2, ih h1.2]
    · rw [if_neg ha]
      simp [dmem, h1.1, ih h1.2]

theorem dmem_dinsert_false (d : Dict) (k k' : String) (v : PyVal)
    (h1 : dmem k d = false) (h2 : k' ≠ k) :
    dmem k (dinsert d k' v) = false := by
  unfold dinsert
  split
  · exact dmem_map_replace d k k' v h1 h2
  · rw [dmem_append]
    simp [dmem, h1, h2]

theorem dmem_dupdate_false (d kw : Dict) (k : String)
    (h1 : dmem k d = false) (h2 : dmem k kw = false) :
    dmem k (dupdate d kw) = false := by
  induction kw generalizing d with
  | nil => exact h1
  | cons p kw ih =>
    obtain ⟨k', v⟩ := p
    simp only [dmem, Bool.or_eq_false_iff, decide_eq_false_iff_not] at h2
    exact ih (dinsert d k' v) (dmem_dinsert_false d k k' v h1 h2.1) h2.2

theorem dlookup_append_left_none (k : String) (d1 d2 : Dict)
    (h : dmem k d1 = false) :
    dlookup k (d1 ++ d2) = dlookup k d2 := by
  induction d1 with
  | nil => simp
  | cons p d ih =>
    obtain ⟨a, b⟩ := p
    simp only [dmem, Bool.or_eq_false_iff, decide_eq_false_iff_not] at h
    simp [dlookup, h.1, ih h.2]

theorem dlookup_map_replace (d : Dict) (k : String) (v : PyVal)
    (h : dmem k d = true) :
    dlookup k (d.map (fun p => if p.1 = k then (k, v) else p)) = some v := by
  induction d with
  | nil => simp [dmem] at h
  | cons p d ih =>
    obtain ⟨a, b⟩ := p
    simp only [List.map_cons]
    by_cases ha : a = k
    · rw [if_pos ha]
      simp [dlookup]
    · rw [if_neg ha]
      simp only [dmem, Bool.or_eq_true_iff, decide_eq_true_eq] at h
      rcases h with h | h
      · exact absurd h ha
      · simp [dlookup, ha, ih h]

theorem dlookup_dinsert (d : Dict) (k : String) (v : PyVal) :
    dlookup k (dinsert d k v) = some v := by
  unfold dinsert
  split
  · rename_i h
    exact dlookup_map_replace d k v h
  · rename_i h
    rw [dlookup_append_left_none k d _ (Bool.not_eq_true _ ▸ h)]
    simp [dlookup]

/-! ## Claim C2 -/

/-- C2: serialization (`__getstate__`) of every entity yields a mapping
containing exactly the fields present in its store — no extra, no missing,
no null-filled absent optionals; in particular a Trigger constructed
without `threshold_value` serializes to a mapping with exactly the keys
`environment_id`, `stream_id`, `url`, `trigger_type`. -/
theorem serialize_exact_fields :
    (∀ d : Dict, Base.getstate d = d) ∧
    (∀ env sid url ty : PyVal,
      (Base.getstate (Trigger.init env sid url ty)).map Prod.fst =
        ["environment_id", "stream_id", "url", "trigger_type"]) := by
  exact ⟨fun d => rfl, fun env sid url ty => rfl⟩

/-! ## Claim C5 -/

/-- C5: reading attribute `n` on an entity returns the stored value when
`n` is in the store (and not shadowed by a structural accessor), yields the
structural accessor when the class defines one, and fails with an
`AttributeError` naming the class and the field exactly when `n` is neither
present in the store nor a defined structural accessor. -/
theorem getattr_spec (classAttrs : List String) (className : String)
    (d : Dict) (name : String) :
    (∀ v, name ∉ classAttrs → dlookup name d = some v →
      readAttr classAttrs className d name = Except.ok (ReadResult.val v)) ∧
    (name ∈ classAttrs →
      readAttr classAttrs className d name = Except.ok ReadResult.structural) ∧
    ((name ∉ classAttrs ∧ dlookup name d = none) ↔
      readAttr classAttrs className d name = Except.error
        ("'" ++ className ++ "' object has no attribute '" ++ name ++ "'")) := by
  refine ⟨?_, ?_, ?_, ?_⟩
  · intro v hn hl
    simp [readAttr, hn, Base.getattr, hl, Except.map]
  · intro hn
    simp [readAttr, hn]
  · rintro ⟨hn, hl⟩
    simp [readAttr, hn, Base.getattr, hl, Except.map]
  · intro h
    by_cases hn : name ∈ classAttrs
    · simp [readAttr, hn] at h
    · cases hl : dlookup name d with
      | none => exact ⟨hn, rfl⟩
      | some v => simp [readAttr, hn, Base.getattr, hl, Except.map] at h

/-- Witness for C5: a Feed populated only with `title` raises
`AttributeError` on reading `private`. -/
theorem getattr_spec_witness :
    readAttr ["datastreams", "update", "delete"] "Feed"
      [("title", PyVal.str "Office")] "private" =
      Except.error "'Feed' object has no attribute 'private'" :=
  (getattr_spec ["datastreams", "update", "delete"] "Feed"
    [("title", PyVal.str "Office")] "private").2.2.mp ⟨by decide, rfl⟩

/-! ## Claim C8 -/

/-- C8: a bound Datapoint's `update()` passes the `at` timestamp as the
identity and a body holding exactly the other fields (`at` removed), also
after a field mutation; `delete()` passes `at` as the identity; and the
item URL is the datapoints collection URL suffixed with the
TimeCodec-encoded `at` value (checked against the test-suite vector). -/
theorem datapoint_identity_spec :
    (∀ a v : PyVal, Datapoint.update (Datapoint.init a v) =
      some (ManagerCall.update a [("value", v)])) ∧
    (∀ a v w : PyVal,
      Datapoint.update (dinsert (Datapoint.init a v) "value" w) =
        some (ManagerCall.update a [("value", w)])) ∧
    (∀ a v : PyVal, Datapoint.delete (Datapoint.init a v) =
      Except.ok (ManagerCall.delete a)) ∧
    (∀ u t, datapointItemUrl u t = u ++ "/" ++ timeEncode t) ∧
    (datapointItemUrl "/v2/feeds/1977/datastreams/1/datapoints"
        ⟨2010, 7, 28, 7, 48, 22, 14326⟩ =
      "/v2/feeds/1977/datastreams/1/datapoints/2010-07-28T07:48:22.014326Z") := by
  refine ⟨fun a v => rfl, fun a v w => rfl, fun a v => rfl, fun u t => rfl, ?_⟩
  decide

/-! ## Claim C10 -/

/-- C10: `Feed.update()`/`Feed.delete()` pass the value of the `feed`
field (the server-assigned self URL) — never the `id` field — as the
identity to the bound manager, and when the store lacks `feed` they fail
with the attribute-missing error (so no manager call is produced). -/
theorem feed_update_identity (f : Feed) :
    (∀ v, dlookup "feed" f.data = some v →
      Feed.update f = Except.ok (ManagerCall.update v (Base.getstate f.data)) ∧
      Feed.delete f = Except.ok (ManagerCall.delete v)) ∧
    (dlookup "feed" f.data = none →
      Feed.update f = Except.error "'Feed' object has no attribute 'feed'" ∧
      Feed.delete f = Except.error "'Feed' object has no attribute 'feed'") := by
  constructor
  · intro v h
    constructor <;> simp [Feed.update, Feed.delete, Base.getattr, h, Except.map]
  · intro h
    constructor <;> simp [Feed.update, Feed.delete, Base.getattr, h, Except.map]

/-- Witness for C10: a Feed carrying both `id` and `feed` uses the `feed`
URL as identity; a Feed without `feed` errors. -/
theorem feed_update_identity_witness :
    (Feed.update ⟨[("title", PyVal.str "Office"), ("id", PyVal.str "123"),
        ("feed", PyVal.str "http://api.cosm.com/v2/feeds/123")], none⟩ =
      Except.ok (ManagerCall.update
        (PyVal.str "http://api.cosm.com/v2/feeds/123")
        [("title", PyVal.str "Office"), ("id", PyVal.str "123"),
         ("feed", PyVal.str "http://api.cosm.com/v2/feeds/123")])) ∧
    (Feed.update ⟨[("title", PyVal.str "Office"), ("id", PyVal.str "123")], none⟩ =
      Except.error "'Feed' object has no attribute 'feed'") :=
  ⟨((feed_update_identity ⟨[("title", PyVal.str "Office"),
      ("id", PyVal.str "123"),
      ("feed", PyVal.str "http://api.cosm.com/v2/feeds/123")], none⟩).1
      (PyVal.str "http://api.cosm.com/v2/feeds/123") rfl).1,
   ((feed_update_identity ⟨[("title", PyVal.str "Office"),
      ("id", PyVal.str "123")], none⟩).2 rfl).1⟩

/-! ## Claim C9 -/

/-- C9: serializing an entity is side-effect-free — `__getstate__` returns
the store and leaves the entity (including the lazy `_datastreams` slot)
unchanged, performs no manager call, and a nested-collection field never
explicitly set is absent from the output rather than materialized. -/
theorem getstate_pure (title : PyVal) (kwargs : Dict)
    (h : dmem "datastreams" kwargs = false) :
    Feed.getstateS (Feed.init title kwargs) =
      ((Feed.init title kwargs).data, Feed.init title kwargs) ∧
    dmem "datastreams" (Feed.getstateS (Feed.init title kwargs)).1 = false ∧
    (Feed.init title kwargs).datastreamsCache = none := by
  have hpop : dpop "datastreams" kwargs = none := by
    unfold dpop
    rw [(dlookup_eq_none_iff "datastreams" kwargs).mpr h]
  refine ⟨rfl, ?_, ?_⟩
  · show dmem "datastreams" (Feed.init title kwargs).data = false
    unfold Feed.init
    rw [hpop]
    exact dmem_dupdate_false _ _ _ rfl h
  · unfold Feed.init
    rw [hpop]

/-- Witness for C9: a Feed built with `title` and `id` only. -/
theorem getstate_pure_witness :
    Feed.getstateS (Feed.init (PyVal.str "Area 51") [("id", PyVal.int 42)]) =
      ((Feed.init (PyVal.str "Area 51") [("id", PyVal.int 42)]).data,
        Feed.init (PyVal.str "Area 51") [("id", PyVal.int 42)]) ∧
    dmem "datastreams"
      (Feed.getstateS
        (Feed.init (PyVal.str "Area 51") [("id", PyVal.int 42)])).1 = false ∧
    (Feed.init (PyVal.str "Area 51")
      [("id", PyVal.int 42)]).datastreamsCache = none :=
  getstate_pure (PyVal.str "Area 51") [("id", PyVal.int 42)] (by decide)

/-! ## Claim C3 -/

/-- C3 (amended): reading `Feed.datastreams` (resp.
`Datastream.datapoints`) always yields the manager-backed collection
handle — created scoped to the owning entity and cached on first read when
the slot is empty, returned from the cache afterwards; explicitly setting
the field stores the supplied raw collection as-is in the entity's data
store (where serialization sees it) without touching the handle slot, but
a subsequent read still yields the manager handle, not the raw
collection. -/
theorem nested_collection_read (f : Feed) (d : Datastream) :
    (f.datastreamsCache = none →
      Feed.datastreams f = (FieldRead.manager ⟨f.data⟩,
        { f with datastreamsCache := some ⟨f.data⟩ })) ∧
    (∀ m, f.datastreamsCache = some m →
      Feed.datastreams f = (FieldRead.manager m, f)) ∧
    (∀ v, (Feed.setDatastreams f v).data = dinsert f.data "datastreams" v ∧
      dlookup "datastreams" (Feed.setDatastreams f v).data = some v ∧
      (Feed.setDatastreams f v).datastreamsCache = f.datastreamsCache) ∧
    (d.datapointsCache = none →
      Datastream.datapoints d = (FieldRead.manager ⟨d.data⟩,
        { d with datapointsCache := some ⟨d.data⟩ })) ∧
    (∀ m, d.datapointsCache = some m →
      Datastream.datapoints d = (FieldRead.manager m, d)) ∧
    (∀ v, (Datastream.setDatapoints d v).data = dinsert d.data "datapoints" v ∧
      dlookup "datapoints" (Datastream.setDatapoints d v).data = some v ∧
      (Datastream.setDatapoints d v).datapointsCache = d.datapointsCache) := by
  refine ⟨?_, ?_, ?_, ?_, ?_, ?_⟩
  · intro h
    simp [Feed.datastreams, h]
  · intro m h
    simp [Feed.datastreams, h]
  · intro v
    exact ⟨rfl, dlookup_dinsert f.data "datastreams" v, rfl⟩
  · intro h
    simp [Datastream.datapoints, h]
  · intro m h
    simp [Datastream.datapoints, h]
  · intro v
    exact ⟨rfl, dlookup_dinsert d.data "datapoints" v, rfl⟩

/-- Witness for C3: first read on a freshly constructed Feed materializes
and caches the manager handle scoped to that Feed. -/
theorem nested_collection_read_witness :
    Feed.datastreams (Feed.init (PyVal.str "T") []) =
      (FieldRead.manager ⟨[("title", PyVal.str "T")]⟩,
        { data := [("title", PyVal.str "T")],
          datastreamsCache := some ⟨[("title", PyVal.str "T")]⟩ }) :=
  (nested_collection_read (Feed.init (PyVal.str "T") [])
    ⟨[("id", PyVal.str "1")], none⟩).1 rfl

/-- Counterexample for C3 as stated: a Feed constructed with an explicit
literal datastreams collection stores it raw in `_data`, yet reading the
`datastreams` attribute does not return that raw collection — it returns
the manager-backed handle. -/
theorem nested_collection_read_cex :
    (Feed.datastreams (Feed.init (PyVal.str "T")
        [("datastreams", PyVal.list [PyVal.entity "Datastream"
          [("id", PyVal.str "1")]])])).1 ≠
      FieldRead.raw (PyVal.list [PyVal.entity "Datastream"
        [("id", PyVal.str "1")]]) ∧
    dlookup "datastreams"
      (Feed.init (PyVal.str "T")
        [("datastreams", PyVal.list [PyVal.entity "Datastream"
          [("id", PyVal.str "1")]])]).data =
      some (PyVal.list [PyVal.entity "Datastream" [("id", PyVal.str "1")]]) := by
  constructor
  · intro h
    rw [show (Feed.datastreams (Feed.init (PyVal.str "T")
        [("datastreams", PyVal.list [PyVal.entity "Datastream"
          [("id", PyVal.str "1")]])])).1 =
      FieldRead.manager ⟨[("title", PyVal.str "T"),
        ("datastreams", PyVal.list [PyVal.entity "Datastream"
          [("id", PyVal.str "1")]])]⟩ from rfl] at h
    exact FieldRead.noConfusion h
  · rfl

theorem encodeObj_forall2 (st : List (String × PyVal))
    (js : List (String × JVal)) (h : encodeObj st = some js) :
    List.Forall₂ (fun (p : String × PyVal) (q : String × JVal) =>
      p.1 = q.1 ∧ encodeVal p.2 = some q.2) st js := by
  induction st generalizing js with
  | nil =>
    simp only [encodeObj] at h
    cases h
    exact List.Forall₂.nil
  | cons p st ih =>
    obtain ⟨k, v⟩ := p
    simp only [encodeObj] at h
    cases hv : encodeVal v with
    | none => rw [hv] at h; exact absurd h (by simp)
    | some j =>
      cases hs : encodeObj st with
      | none => rw [hv, hs] at h; exact absurd h (by simp)
      | some js' =>
        rw [hv, hs] at h
        cases h
        exact List.Forall₂.cons ⟨rfl, hv⟩ (ih js' hs)

theorem encodeList_forall2 (xs : List PyVal) (js : List JVal)
    (h : encodeList xs = some js) :
    List.Forall₂ (fun x j => encodeVal x = some j) xs js := by
  induction xs generalizing js with
  | nil =>
    simp only [encodeList] at h
    cases h
    exact List.Forall₂.nil
  | cons x xs ih =>
    simp only [encodeList] at h
    cases hv : encodeVal x with
    | none => rw [hv] at h; exact absurd h (by simp)
    | some j =>
      cases hs : encodeList xs with
      | none => rw [hv, hs] at h; exact absurd h (by simp)
      | some js' =>
        rw [hv, hs] at h
        cases h
        exact List.Forall₂.cons hv (ih js' hs)

/-! ## Claim C6 -/

/-- C6: serialization recursively serializes nested entities by the same
rule — an entity serializes to an object over exactly its store's keys, in
order, each value encoded by the same function; every timestamp in the
tree is rendered through the TimeCodec encoding; strings, integers and
booleans pass through unchanged; list elements are encoded elementwise. -/
theorem jsonEncode_spec :
    (∀ cn st, encodeVal (PyVal.entity cn st) = (encodeObj st).map JVal.obj) ∧
    (∀ st js, encodeObj st = some js →
      List.Forall₂ (fun (p : String × PyVal) (q : String × JVal) =>
        p.1 = q.1 ∧ encodeVal p.2 = some q.2) st js) ∧
    (∀ st js, encodeObj st = some js → js.map Prod.fst = st.map Prod.fst) ∧
    (∀ t, encodeVal (PyVal.dt t) = some (JVal.str (timeEncode t))) ∧
    (∀ s, encodeVal (PyVal.str s) = some (JVal.str s)) ∧
    (∀ n, encodeVal (PyVal.int n) = some (JVal.int n)) ∧
    (∀ b, encodeVal (PyVal.bool b) = some (JVal.bool b)) ∧
    (∀ xs js, encodeList xs = some js →
      List.Forall₂ (fun x j => encodeVal x = some j) xs js) := by
  refine ⟨fun cn st => rfl, encodeObj_forall2, ?_, fun t => rfl, fun s => rfl,
    fun n => rfl, fun b => rfl, encodeList_forall2⟩
  intro st js h
  have h2 := encodeObj_forall2 st js h
  clear h
  induction h2 with
  | nil => rfl
  | cons hp _ ih => simp [ih, hp.1]

/-- Witness for C6: a store holding a string and a timestamp encodes
fieldwise with the timestamp rendered through the TimeCodec. -/
theorem jsonEncode_spec_witness :
    List.Forall₂ (fun (p : String × PyVal) (q : String × JVal) =>
      p.1 = q.1 ∧ encodeVal p.2 = some q.2)
      [("title", PyVal.str "Feed Test"),
       ("at", PyVal.dt ⟨2010, 5, 20, 11, 1, 43, 0⟩)]
      [("title", JVal.str "Feed Test"),
       ("at", JVal.str "2010-05-20T11:01:43Z")] :=
  jsonEncode_spec.2.1 _ _ (by simp [encodeObj, encodeVal]; rfl)


theorem hasScheme_of_leading_slash (url : String)
    (h : url.data.head? = some '/') : hasScheme url = false := by
  unfold hasScheme
  rw [if_neg]
  intro hc
  cases hd : url.data with
  | nil => rw [hd] at h; exact absurd h (by simp)
  | cons c rest =>
    rw [hd] at h
    simp only [List.head?_cons, Option.some.injEq] at h
    rw [hd, h] at hc
    rw [List.dropWhile_cons] at hc
    rw [show isSchemeChar '/' = false from rfl] at hc
    simp only [Bool.false_eq_true, if_false, List.head?_cons,
      Option.some.injEq] at hc
    exact absurd hc (by decide)

/-! ## Claim C7 -/

/-- C7: every request issued through the Client resolves a relative URL
against the configured base URL (`http://api.cosm.com`), while an absolute
URL passed directly overrides the base entirely and is sent unchanged. -/
theorem requestUrl_resolution :
    (∀ url : String, hasScheme url = true → Client.requestUrl url = url) ∧
    (∀ path : String, path.data.head? = some '/' →
      (path.data.drop 1).head? ≠ some '/' →
      Client.requestUrl path = "http://api.cosm.com" ++ path) := by
  constructor
  · intro url h
    have hne : url ≠ "" := by
      intro e
      rw [e] at h
      exact absurd h (by decide)
    unfold Client.requestUrl urljoin
    rw [if_neg hne, if_pos h]
  · intro path h1 h2
    have hne : path ≠ "" := by
      intro e
      rw [e] at h1
      exact absurd h1 (by simp)
    unfold Client.requestUrl urljoin
    rw [if_neg hne, if_neg (by rw [hasScheme_of_leading_slash path h1]; simp),
      if_neg (fun hc => h2 hc.2), if_pos h1]
    rfl

/-- Witness for C7: the two URL forms exercised by the test suite. -/
theorem requestUrl_resolution_witness :
    Client.requestUrl "/v2/feeds" = "http://api.cosm.com/v2/feeds" ∧
    Client.requestUrl "http://example.com" = "http://example.com" := by
  constructor
  · have h := requestUrl_resolution.2 "/v2/feeds" (by decide) (by decide)
    rw [h]
    decide
  · exact requestUrl_resolution.1 "http://example.com" (by decide)


/-! ## Claim C4 -/

/-- C4 (amended): for every timestamp `t`, the encoding renders `t`'s
calendar fields as an ISO-8601-like string and appends the literal UTC
marker `Z` as a fixed suffix (not computed from a timezone offset); the
6-digit microsecond fraction is present exactly when the microsecond
component is nonzero (so the rendered length is 20 or 27). -/
theorem timeEncode_shape (t : PyDateTime) :
    (timeEncode t).data = isoformatChars t ++ ['Z'] ∧
    (timeEncode t).data.getLast? = some 'Z' ∧
    (timeEncode t).data.length = (if t.microsecond = 0 then 20 else 27) ∧
    ('.' ∈ (timeEncode t).data ↔ t.microsecond ≠ 0) := by
  have np : ∀ w n, '.' ∉ padDigits w n :=
    fun w n => not_digit_mem_padDigits '.' w n (by decide)
  have hdata : (timeEncode t).data = isoformatChars t ++ ['Z'] := by
    simp [timeEncode, pyIsoformat]
  refine ⟨hdata, ?_, ?_, ?_⟩
  · rw [hdata]
    simp
  · rw [hdata, isoformatChars]
    by_cases h : t.microsecond = 0 <;>
      simp [h, List.length_append, padDigits_length]
  · rw [hdata, isoformatChars]
    constructor
    · intro hm h0
      rw [if_pos h0] at hm
      simp only [List.append_nil, List.mem_append, List.mem_cons,
        List.mem_singleton, List.not_mem_nil, or_false, np,
        (by decide : ('.' : Char) ≠ '-'), (by decide : ('.' : Char) ≠ 'T'),
        (by decide : ('.' : Char) ≠ ':'), (by decide : ('.' : Char) ≠ 'Z'),
        false_or, or_false] at hm
    · intro h0
      rw [if_neg h0]
      simp

/-- Counterexample for C4 as stated: at a whole-second timestamp the
rendering contains no microsecond fraction at all (no `.` and only 20
characters), so the output is not at microsecond precision for every
timestamp. -/
theorem timeEncode_no_fraction_cex :
    timeEncode ⟨2013, 2, 22, 12, 14, 40, 0⟩ = "2013-02-22T12:14:40Z" ∧
    '.' ∉ (timeEncode ⟨2013, 2, 22, 12, 14, 40, 0⟩).data ∧
    (timeEncode ⟨2013, 2, 22, 12, 14, 40, 0⟩).data.length = 20 := by
  refine ⟨by decide, by decide, by decide⟩
